import Mathlib

/-!
# Verification of the sidewinder_msi interrupt distributor

Shallow embedding of the interrupt-notification distributor
(`src/driver/distributor.cpp`, `src/driver/distributor.h`) and the
interrupt monitor loop (`src/driver/main.cpp`).

Modelling conventions:
* The C++ object state of `CDistributor` (fields `fd_`, `highestFD_`,
  `irqCount_`, `path_`) is the structure `DistState`.  The `fd_` array of
  32 `int`s is a `List Int` of length 32; the constructor fills it with
  `-1`.  `highestFD_` is not initialised by the constructor, so the
  constructor model takes the indeterminate initial value as a parameter.
* Filesystem and descriptor effects (`remove`, `mkfifo`, `open`, `close`,
  `write`) are recorded as events in a trace; the outcome of `mkfifo` and
  `open`, and the writability of a descriptor as reported by the
  zero-timeout `select`, are supplied by an environment oracle, since they
  depend on the operating system.
* C `int` counters that are only ever compared against a non-negative
  bound drive loops of `Int.toNat` iterations (a negative bound gives
  zero iterations, exactly as the C `for` loop).
-/

namespace Sidewinder

/-- Constant `MAX_IRQS` from `distributor.h`: capacity of the `fd_` array. -/
def MAX_IRQS : Nat := 32

/-- The name `sprintf(name, "%s%i", path, n)` builds for pipe `n`:
the root path followed by the decimal representation of `n`. -/
def pipeName (path : String) (n : Nat) : String := path ++ toString n

/-- Observable filesystem / descriptor effects of the distributor. -/
inductive FsEvent where
  /-- a call `remove(name)` happened. -/
  | removed (name : String)
  /-- a call `mkfifo(name, 0666)` succeeded: the named FIFO now exists. -/
  | created (name : String)
  /-- a call `open(name, O_RDWR)` succeeded, yielding descriptor `fd`. -/
  | opened (name : String) (fd : Int)
  /-- a call `close(fd)` happened. -/
  | closed (fd : Int)
  /-- one byte (the sentinel `"X"`) was written to descriptor `fd`. -/
  | wrote (fd : Int)
deriving DecidableEq, Repr

/-- Returns `true` exactly on `close` events. -/
def FsEvent.isClosed : FsEvent → Bool
  | .closed _ => true
  | _ => false

/-- Environment oracle for `createPipe`: whether `mkfifo` succeeds for
pipe index `n`, and which descriptor `open(name, O_RDWR)` returns when it
does (a negative value models an `open` failure). -/
structure Env where
  mkfifoOK : Nat → Bool
  openFD : Nat → Int

/-- Function `createPipe(path, n)` from `distributor.cpp`: build the name, remove
any pre-existing file of that name, create the FIFO, open it read/write.
Returns the descriptor (`-1` on failure) and the trace of effects. -/
def createPipe (env : Env) (path : String) (n : Nat) : Int × List FsEvent :=
  let name := pipeName path n
  if env.mkfifoOK n then
    let fd := env.openFD n
    if fd < 0 then
      (-1, [.removed name, .created name])
    else
      (fd, [.removed name, .created name, .opened name fd])
  else
    (-1, [.removed name])

/-- The state of a `CDistributor` object. -/
structure DistState where
  /-- field `fd_[MAX_IRQS]`: write-end descriptors, `-1` meaning "not open". -/
  fd : List Int
  /-- field `highestFD_`: largest descriptor in `fd_` (set by `init`). -/
  highestFD : Int
  /-- field `irqCount_`: number of interrupt sources in use. -/
  irqCount : Int
  /-- field `path_`: root path of the FIFO names. -/
  path : String
deriving DecidableEq, Repr

/-- The `CDistributor` constructor: all 32 descriptor slots become `-1`
and `irqCount_` becomes 0.  `highestFD_` and `path_` are left at their
pre-constructor values: `h0` stands for the indeterminate `int`, and a
default-constructed `std::string` is empty. -/
def CDistributor.new (h0 : Int) : DistState :=
  { fd := List.replicate MAX_IRQS (-1)
    highestFD := h0
    irqCount := 0
    path := "" }

/-- The creation loop of `init` starting at index `i` with `remaining`
iterations left: create and open each FIFO, bail out with `false` the
moment one fails, track the highest descriptor.  Returns
(success, fd array, highest descriptor, trace). -/
def initLoop (env : Env) (path : String) :
    List Int → Int → Nat → Nat → List FsEvent →
    Bool × List Int × Int × List FsEvent
  | fds, highest, _, 0, tr => (true, fds, highest, tr)
  | fds, highest, i, remaining + 1, tr =>
    let r := createPipe env path i
    let fds' := fds.set i r.1
    if r.1 = -1 then
      (false, fds', highest, tr ++ r.2)
    else
      initLoop env path fds' (if r.1 > highest then r.1 else highest)
        (i + 1) remaining (tr ++ r.2)

/-- Method `CDistributor::init(dir, irqCount)`: sets `path_ = dir + "/interrupt"`,
records `irqCount_`, resets `highestFD_` to `-1`, then creates and opens
one FIFO per source, stopping at the first failure.  Returns the `bool`
result, the final object state and the trace of effects. -/
def init (st : DistState) (env : Env) (dir : String) (irqCount : Int) :
    Bool × DistState × List FsEvent :=
  let path := dir ++ "/interrupt"
  let r := initLoop env path st.fd (-1) 0 irqCount.toNat []
  (r.1,
   { fd := r.2.1, highestFD := r.2.2.1, irqCount := irqCount, path := path },
   r.2.2.2)

/-- Method `CDistributor::distribute(irqSources)`: `select` with a zero timeout
reports which of the registered descriptors are writable (the oracle
`writable`); then for each source index `i < irqCount_`, one byte is
written to `fd_[i]` exactly when bit `i` of the bitmap is set and the
descriptor is in the writable set.  `irqSources` is the 32-bit bitmap
read from the status register.  Returns the list of source indices whose
FIFO receives one byte, in ascending order. -/
def distribute (st : DistState) (writable : Int → Bool) (irqSources : Nat) :
    List Nat :=
  (List.range st.irqCount.toNat).filter fun i =>
    irqSources.testBit i && writable (st.fd.getD i (-1))

/-- The descriptor-closing loop of `cleanup`: `fd_[i] = -1` for every
`i < n` (slots beyond the list length do not exist). -/
def clearFDs : List Int → Nat → List Int
  | l, 0 => l
  | [], _ + 1 => []
  | _ :: t, n + 1 => -1 :: clearFDs t n

/-- Method `CDistributor::cleanup()`: close every descriptor slot `i < irqCount_`
that is not already `-1` and reset the slot to `-1`; then, unless `path_`
is empty, remove the FIFO name of every index in `[0, MAX_IRQS)`.
Returns the new state and the trace of effects. -/
def cleanup (st : DistState) : DistState × List FsEvent :=
  let n := st.irqCount.toNat
  let closes := (List.range n).filterMap fun i =>
    if st.fd.getD i (-1) ≠ -1 then some (FsEvent.closed (st.fd.getD i (-1)))
    else none
  let removes :=
    if st.path = "" then []
    else (List.range MAX_IRQS).map fun i => FsEvent.removed (pipeName st.path i)
  ({ st with fd := clearFDs st.fd n }, closes ++ removes)

/-- Method `CDistributor::spawnSelfTest`: if `irqCount_` is 0 nothing happens,
otherwise a detached self-test thread is spawned.  The object state is
never modified; the `Bool` reports whether a thread was started. -/
def spawnSelfTest (st : DistState) : DistState × Bool :=
  if st.irqCount = 0 then (st, false) else (st, true)

/-- Outcome of one iteration of the `selfTest` loop body. -/
inductive SelfTestOutcome where
  /-- the loop continues, testing source `irq` next. -/
  | continueWith (irq : Nat)
  /-- the `break` path: the writer closed the FIFO, normal termination. -/
  | done
  /-- the `exit(1)` path: a read of an unexpected byte count kills the process. -/
  | fatal
deriving DecidableEq, Repr

/-- One iteration of the loop body of `CDistributor::selfTest`, after the
synthetic interrupt has been raised on source `irq` of `irqCount`
configured sources: `bytesRead` is what the blocking one-byte `read`
returned.  Zero bytes breaks out of the loop; any other count than one
calls `exit(1)`; otherwise `irq` is advanced and wrapped to 0 when it
reaches `irqCount`. -/
def selfTestStep (irqCount : Nat) (irq : Nat) (bytesRead : Int) :
    SelfTestOutcome :=
  if bytesRead = 0 then .done
  else if bytesRead ≠ 1 then .fatal
  else .continueWith (if irq + 1 = irqCount then 0 else irq + 1)

/-- Observable effects of one pass of the `monitorInterrupts` service
loop in `main.cpp`: hardware register accesses and FIFO writes. -/
inductive MonEvent where
  /-- the status register `*imReg0` was read, yielding bitmap `v`. -/
  | statusRead (v : Nat)
  /-- bitmap `v` was written to the acknowledge register `*imReg1`. -/
  | ackWrite (v : Nat)
  /-- `distribute` wrote one byte to the FIFO of source `i`. -/
  | fifoWrite (i : Nat)
deriving DecidableEq, Repr

/-- One servicing pass of `monitorInterrupts` after the blocking UIO read
unblocks: read the status bitmap; if it is zero, `continue` straight back
to waiting; otherwise write the bitmap to the acknowledge register and
then invoke `Distributor.distribute` on it. -/
def servicePass (st : DistState) (writable : Int → Bool) (status : Nat) :
    List MonEvent :=
  if status = 0 then
    [.statusRead status]
  else
    .statusRead status :: .ackWrite status ::
      (distribute st writable status).map .fifoWrite

/-- A fully successful environment: every `mkfifo` succeeds and `open`
hands out the distinct descriptors 3, 4, 5, … -/
def envT : Env :=
  { mkfifoOK := fun _ => true, openFD := fun n => (n : Int) + 3 }

/-- A concrete distributor state: freshly constructed, then initialised
with three sources under root directory `"t"`. -/
def stT : DistState := (init (CDistributor.new 0) envT "t" 3).2.1

/-- A readiness oracle under which every descriptor is writable. -/
def wT : Int → Bool := fun _ => true

/-! ## Helper lemmas -/

theorem createPipe_fst_ne_neg_one_created (env : Env) (path : String) (i : Nat)
    (h : (createPipe env path i).1 ≠ -1) :
    FsEvent.created (pipeName path i) ∈ (createPipe env path i).2 := by
  unfold createPipe at *
  by_cases hmk : env.mkfifoOK i
  · simp only [hmk, if_true] at *
    by_cases hfd : env.openFD i < 0
    · simp [hfd] at h
    · simp [hfd]
  · simp [hmk] at h

theorem initLoop_trace_mono (env : Env) (path : String) :
    ∀ (remaining i : Nat) (fds : List Int) (highest : Int) (tr : List FsEvent),
      ∃ s, (initLoop env path fds highest i remaining tr).2.2.2 = tr ++ s := by
  intro remaining
  induction remaining with
  | zero =>
    intro i fds highest tr
    exact ⟨[], (List.append_nil tr).symm⟩
  | succ r ih =>
    intro i fds highest tr
    simp only [initLoop]
    by_cases h : (createPipe env path i).1 = -1
    · simp only [h, if_true]
      exact ⟨(createPipe env path i).2, rfl⟩
    · simp only [h, if_false]
      obtain ⟨s, hs⟩ := ih (i + 1)
        (fds.set i (createPipe env path i).1)
        (if (createPipe env path i).1 > highest then (createPipe env path i).1
         else highest)
        (tr ++ (createPipe env path i).2)
      exact ⟨(createPipe env path i).2 ++ s, by rw [hs, List.append_assoc]⟩

theorem initLoop_created_mem (env : Env) (path : String) :
    ∀ (remaining i : Nat) (fds : List Int) (highest : Int) (tr : List FsEvent)
      (k : Nat), k < remaining →
      (initLoop env path fds highest i remaining tr).1 = true →
      FsEvent.created (pipeName path (i + k)) ∈
        (initLoop env path fds highest i remaining tr).2.2.2 := by
  intro remaining
  induction remaining with
  | zero =>
    intro i fds highest tr k hk
    exact absurd hk (Nat.not_lt_zero k)
  | succ r ih =>
    intro i fds highest tr k hk hok
    simp only [initLoop] at hok ⊢
    by_cases h : (createPipe env path i).1 = -1
    · simp [h] at hok
    · simp only [h, if_false] at hok ⊢
      cases k with
      | zero =>
        obtain ⟨s, hs⟩ := initLoop_trace_mono env path r (i + 1)
          (fds.set i (createPipe env path i).1)
          (if (createPipe env path i).1 > highest then (createPipe env path i).1
           else highest)
          (tr ++ (createPipe env path i).2)
        rw [hs]
        have hc := createPipe_fst_ne_neg_one_created env path i h
        simp only [Nat.add_zero, List.append_assoc, List.mem_append]
        exact Or.inr (Or.inl hc)
      | succ j =>
        have hmem := ih (i + 1)
          (fds.set i (createPipe env path i).1)
          (if (createPipe env path i).1 > highest then (createPipe env path i).1
           else highest)
          (tr ++ (createPipe env path i).2) j (by omega) hok
        rw [show i + (j + 1) = (i + 1) + j by omega]
        exact hmem

theorem clearFDs_getD (l : List Int) :
    ∀ (n i : Nat), i < n → (clearFDs l n).getD i (-1) = -1 := by
  induction l with
  | nil =>
    intro n i hi
    cases n with
    | zero => exact absurd hi (Nat.not_lt_zero i)
    | succ m => simp [clearFDs, List.getD]
  | cons v t ih =>
    intro n i hi
    cases n with
    | zero => exact absurd hi (Nat.not_lt_zero i)
    | succ m =>
      cases i with
      | zero => simp [clearFDs, List.getD]
      | succ j =>
        simp only [clearFDs, List.getD_cons_succ]
        exact ih m j (by omega)

theorem clearFDs_idem (l : List Int) :
    ∀ n : Nat, clearFDs (clearFDs l n) n = clearFDs l n := by
  induction l with
  | nil =>
    intro n
    cases n with
    | zero => rfl
    | succ m => rfl
  | cons v t ih =>
    intro n
    cases n with
    | zero => rfl
    | succ m => simp [clearFDs, ih m]

theorem dir_append_interrupt_ne_empty (dir : String) : dir ++ "/interrupt" ≠ "" := by
  intro h
  have h2 : dir.data ++ ("/interrupt" : String).data = [] := by
    rw [← String.data_append, h]
  have h3 := (List.append_eq_nil.mp h2).2
  exact absurd (String.ext h3) (by decide)

theorem cleanup_trace (s : DistState) :
    (cleanup s).2 =
      ((List.range s.irqCount.toNat).filterMap fun i =>
        if s.fd.getD i (-1) ≠ -1 then some (FsEvent.closed (s.fd.getD i (-1)))
        else none) ++
      (if s.path = "" then []
       else (List.range MAX_IRQS).map fun i =>
         FsEvent.removed (pipeName s.path i)) := rfl

theorem toString_nat_injOn_lt32 :
    ∀ i < MAX_IRQS, ∀ j < MAX_IRQS, i ≠ j → toString i ≠ toString j := by
  decide

theorem pipeName_injOn (p : String) (i j : Nat) (hi : i < MAX_IRQS)
    (hj : j < MAX_IRQS) (hne : i ≠ j) : pipeName p i ≠ pipeName p j := by
  intro h
  have hd := congrArg String.data h
  simp only [pipeName, String.data_append] at hd
  have h2 := List.append_cancel_left hd
  exact toString_nat_injOn_lt32 i hi j hj hne (String.ext h2)

/-! ## Claim theorems -/

/-- C1: the claim says `init` with a count above `MAX_IRQS` (32) fails
before any resource creation is attempted.  The code has no such check:
evaluated at count 33 in an environment where every creation succeeds,
`init` reports success and its trace shows FIFO creation for every index,
including index 32 — one past the end of the 32-entry `fd_` array (an
out-of-bounds write in the C++ code). -/
theorem init_count33_attempts_creation :
    (init (CDistributor.new 0) envT "dir" 33).1 = true
  ∧ FsEvent.created (pipeName "dir/interrupt" 0) ∈
      (init (CDistributor.new 0) envT "dir" 33).2.2
  ∧ FsEvent.created (pipeName "dir/interrupt" 32) ∈
      (init (CDistributor.new 0) envT "dir" 33).2.2 := by
  refine ⟨by decide, by decide, by decide⟩

/-- C3: on a servicing pass of the monitor loop, a zero status bitmap
produces only the status read — no acknowledge write and no distributor
invocation; a nonzero status bitmap is written to the acknowledge
register at trace position 1, strictly before every FIFO write. -/
theorem servicePass_ack_before_distribute (st : DistState)
    (writable : Int → Bool) (status : Nat) :
    servicePass st writable 0 = [.statusRead 0]
  ∧ (status ≠ 0 →
      (servicePass st writable status)[1]? = some (.ackWrite status)
    ∧ ∀ k i, (servicePass st writable status)[k]? = some (.fifoWrite i) →
        1 < k) := by
  constructor
  · rfl
  · intro hs
    unfold servicePass
    rw [if_neg hs]
    refine ⟨by simp, ?_⟩
    intro k i hk
    match k with
    | 0 => simp at hk
    | 1 => simp at hk
    | k + 2 => omega

/-- Witness for C3 at a concrete state (three configured sources, all
writable) and status bitmap `0x5`. -/
theorem servicePass_ack_before_distribute_witness :
    (servicePass stT wT 5)[1]? = some (MonEvent.ackWrite 5) ∧ 1 < 2 :=
  ⟨((servicePass_ack_before_distribute stT wT 5).2 (by decide)).1,
   ((servicePass_ack_before_distribute stT wT 5).2 (by decide)).2 2 0 (by decide)⟩

/-- C5: one iteration of the `selfTest` loop body, for a current source
`irq` of `n` configured sources: a zero-byte read breaks out of the loop
(normal termination), a byte count other than zero and one calls
`exit(1)`, and a one-byte read advances the current source round-robin
modulo `n`. -/
theorem selfTestStep_spec (n irq : Nat) (bytesRead : Int) (h : irq < n) :
    selfTestStep n irq 0 = .done
  ∧ (bytesRead ≠ 0 → bytesRead ≠ 1 → selfTestStep n irq bytesRead = .fatal)
  ∧ selfTestStep n irq 1 = .continueWith ((irq + 1) % n) := by
  refine ⟨rfl, ?_, ?_⟩
  · intro h0 h1
    unfold selfTestStep
    rw [if_neg h0, if_pos h1]
  · unfold selfTestStep
    rw [if_neg (by decide : (1 : Int) ≠ 0), if_neg (by simp)]
    by_cases he : irq + 1 = n
    · rw [if_pos he, he, Nat.mod_self]
    · rw [if_neg he, Nat.mod_eq_of_lt (by omega)]

/-- Witness for C5 with three configured sources, current source 2, and a
failed read returning `-1`. -/
theorem selfTestStep_spec_witness :
    selfTestStep 3 2 0 = .done
  ∧ selfTestStep 3 2 (-1) = .fatal
  ∧ selfTestStep 3 2 1 = .continueWith 0 :=
  ⟨(selfTestStep_spec 3 2 (-1) (by decide)).1,
   (selfTestStep_spec 3 2 (-1) (by decide)).2.1 (by decide) (by decide),
   (selfTestStep_spec 3 2 (-1) (by decide)).2.2⟩

/-- C8: `spawnSelfTest` on a distributor whose recorded source count is 0
(the value a fresh construction leaves, before a successful `init`) is a
no-op: no thread is spawned and the state is unchanged. -/
theorem spawnSelfTest_noop_when_uninit (st : DistState)
    (h : st.irqCount = 0) : spawnSelfTest st = (st, false) := by
  unfold spawnSelfTest
  rw [if_pos h]

/-- Witness for C8 on a freshly constructed distributor. -/
theorem spawnSelfTest_noop_when_uninit_witness :
    spawnSelfTest (CDistributor.new 0) = (CDistributor.new 0, false) :=
  spawnSelfTest_noop_when_uninit (CDistributor.new 0) rfl

/-- C9: `cleanup` on a freshly constructed distributor (all 32 descriptor
slots at `-1`, source count 0, empty path whatever the indeterminate
`highestFD_` value `h0` is) closes no descriptor, removes no file, and
leaves the state unchanged: the effect trace is empty. -/
theorem cleanup_fresh_is_noop (h0 : Int) :
    cleanup (CDistributor.new h0) = (CDistributor.new h0, []) := rfl

/-- C10: `init` with count 0 succeeds, touches no file (empty trace),
records a source count of 0 and a highest descriptor of `-1`, and every
subsequent `distribute`, for any bitmap and any readiness oracle,
performs zero writes. -/
theorem init_zero_spec (st₀ : DistState) (env : Env) (dir : String)
    (writable : Int → Bool) (bitmap : Nat) :
    (init st₀ env dir 0).1 = true
  ∧ (init st₀ env dir 0).2.2 = []
  ∧ (init st₀ env dir 0).2.1.irqCount = 0
  ∧ (init st₀ env dir 0).2.1.highestFD = -1
  ∧ distribute (init st₀ env dir 0).2.1 writable bitmap = [] :=
  ⟨rfl, rfl, rfl, rfl, rfl⟩

/-- C2: for every configured source index `i`, `distribute` writes
exactly one byte to channel `i` (its index occurs exactly once in the
write list, each occurrence being a single one-byte write) precisely when
bit `i` of the bitmap is set and the channel descriptor is reported
writable by the zero-timeout readiness poll, and writes nothing to it
otherwise; `distribute` of bitmap 0 performs zero writes. -/
theorem distribute_writes_iff (st : DistState) (writable : Int → Bool)
    (bitmap : Nat) (i : Nat) (hi : i < st.irqCount.toNat) :
    ((distribute st writable bitmap).count i =
      if bitmap.testBit i ∧ writable (st.fd.getD i (-1)) then 1 else 0)
  ∧ distribute st writable 0 = [] := by
  constructor
  · by_cases hc : bitmap.testBit i ∧ writable (st.fd.getD i (-1))
    · rw [if_pos hc]
      refine List.count_eq_one_of_mem ((List.nodup_range _).filter _) ?_
      unfold distribute
      rw [List.mem_filter]
      exact ⟨List.mem_range.mpr hi, by rw [Bool.and_eq_true]; exact ⟨hc.1, hc.2⟩⟩
    · rw [if_neg hc]
      refine List.count_eq_zero.mpr ?_
      intro hmem
      unfold distribute at hmem
      rw [List.mem_filter] at hmem
      exact hc (by simpa using hmem.2)
  · unfold distribute
    refine List.filter_eq_nil_iff.mpr ?_
    intro a _
    simp [Nat.zero_testBit]

/-- Witness for C2: three configured sources, all writable, bitmap
`0x5`: channel 0 receives exactly one byte, and bitmap 0 gives no
writes. -/
theorem distribute_writes_iff_witness :
    (distribute stT wT 5).count 0 = 1 ∧ distribute stT wT 0 = [] := by
  have h := distribute_writes_iff stT wT 5 0 (by decide)
  refine ⟨?_, h.2⟩
  rw [h.1]
  decide

/-- C4: after `cleanup` on any state produced by `init` (successful or
partial, any requested count), the FIFO name of every index in the full
range `[0, MAX_IRQS)` has a removal in the effect trace, because `init`
always sets a non-empty `path_`. -/
theorem teardown_after_init_removes_all (st₀ : DistState) (env : Env)
    (dir : String) (count : Int) (i : Nat) (hi : i < MAX_IRQS) :
    FsEvent.removed (pipeName (init st₀ env dir count).2.1.path i) ∈
      (cleanup (init st₀ env dir count).2.1).2 := by
  have hpath : (init st₀ env dir count).2.1.path = dir ++ "/interrupt" := rfl
  rw [cleanup_trace, List.mem_append]
  right
  rw [hpath, if_neg (dir_append_interrupt_ne_empty dir)]
  rw [List.mem_map]
  exact ⟨i, List.mem_range.mpr hi, rfl⟩

/-- Witness for C4: only 3 of 32 channels configured, yet the name of
index 31 is still removed. -/
theorem teardown_after_init_removes_all_witness :
    FsEvent.removed (pipeName (init (CDistributor.new 0) envT "t" 3).2.1.path 31) ∈
      (cleanup (init (CDistributor.new 0) envT "t" 3).2.1).2 :=
  teardown_after_init_removes_all (CDistributor.new 0) envT "t" 3 31 (by decide)

/-- C6: `cleanup` is idempotent: a second call yields the same state as
the first and closes no descriptor (every slot it visits already holds
`-1`, so the close branch is never taken). -/
theorem cleanup_idempotent (st : DistState) :
    (cleanup (cleanup st).1).1 = (cleanup st).1
  ∧ ((cleanup (cleanup st).1).2.filter FsEvent.isClosed) = [] := by
  have hfd : (cleanup st).1.fd = clearFDs st.fd st.irqCount.toNat := rfl
  have hcnt : (cleanup st).1.irqCount = st.irqCount := rfl
  have hpath : (cleanup st).1.path = st.path := rfl
  constructor
  · show ({ (cleanup st).1 with
        fd := clearFDs (cleanup st).1.fd (cleanup st).1.irqCount.toNat } :
        DistState) = (cleanup st).1
    rw [hfd, hcnt, clearFDs_idem, ← hfd]
  · rw [List.filter_eq_nil_iff]
    intro a ha
    rw [cleanup_trace, List.mem_append] at ha
    rcases ha with h1 | h2
    · rw [List.mem_filterMap] at h1
      obtain ⟨i, hir, hsome⟩ := h1
      rw [List.mem_range, hcnt] at hir
      rw [hfd, clearFDs_getD st.fd st.irqCount.toNat i hir] at hsome
      simp at hsome
    · rw [hpath] at h2
      by_cases hp : st.path = ""
      · rw [if_pos hp] at h2
        simp at h2
      · rw [if_neg hp, List.mem_map] at h2
        obtain ⟨i, _, hi⟩ := h2
        rw [← hi]
        simp [FsEvent.isClosed]

/-- C7: when `init` succeeds for `count ≤ MAX_IRQS` sources, the trace
shows that the resource created for source `i` is named exactly
`path_ ++ toString i` where `path_ = dir ++ "/interrupt"` is the
configured root path, and these names are pairwise distinct, so an
external reader can predict channel `i`'s name from the root path and
the index alone. -/
theorem init_channel_names (st₀ : DistState) (env : Env) (dir : String)
    (count : Nat) (hcount : count ≤ MAX_IRQS)
    (hok : (init st₀ env dir count).1 = true) :
    (∀ i < count, FsEvent.created (pipeName (dir ++ "/interrupt") i) ∈
        (init st₀ env dir count).2.2)
  ∧ ∀ i < count, ∀ j < count, i ≠ j →
      pipeName (dir ++ "/interrupt") i ≠ pipeName (dir ++ "/interrupt") j := by
  constructor
  · intro i hi
    have h := initLoop_created_mem env (dir ++ "/interrupt")
      ((count : Int)).toNat 0 st₀.fd (-1) [] i (by simpa using hi) hok
    have h2 : FsEvent.created (pipeName (dir ++ "/interrupt") (0 + i)) ∈
        (init st₀ env dir count).2.2 := h
    simpa using h2
  · intro i hi j hj hne
    exact pipeName_injOn _ i j (by omega) (by omega) hne

/-- Witness for C7: a successful three-source `init`; channel 2's created
resource is named from the root path and index, and channels 0 and 1
have different names. -/
theorem init_channel_names_witness :
    FsEvent.created (pipeName ("t" ++ "/interrupt") 2) ∈
      (init (CDistributor.new 0) envT "t" 3).2.2
  ∧ pipeName ("t" ++ "/interrupt") 0 ≠ pipeName ("t" ++ "/interrupt") 1 :=
  ⟨(init_channel_names (CDistributor.new 0) envT "t" 3 (by decide)
      (by decide)).1 2 (by decide),
   (init_channel_names (CDistributor.new 0) envT "t" 3 (by decide)
      (by decide)).2 0 (by decide) 1 (by decide) (by decide)⟩

end Sidewinder
